import Mathlib

/-!
# Verification of the dedup-and-delivery state machine of `bot.py`

This file gives a shallow embedding of the core logic of `src/bot.py`:

* the persisted state (`last_message_id` cursor and `retry_counts` map,
  lines 36-63 of the source),
* the pure helpers `os.path.splitext`, `str.format`, `is_image_attachment`
  and the target-name derivation (lines 65-68 and 194-206),
* the decision logic of one tick of `check_channel` up to the upload call
  (lines 143-209), as a pure function of the loaded state and the fetched
  message,
* an operational model of the interleaving of ticks with the deferred
  `retry_upload_after_delay` tasks (lines 100-125 and 209-231): each
  maximal await-free block of the source that loads and/or saves the state
  file is one atomic event, matching the single-threaded asyncio event loop,
* the loading of the persisted JSON state (lines 36-42 together with the
  conversions at lines 53-55 and 145-146), over a small JSON value model.

Message identifiers are modelled as `Nat` (Discord snowflakes are
non-negative and strictly increase over time); the JSON keys `str(msg_id)`
are in bijection with the identifiers, so the retry map is keyed by `Nat`
directly.  Python's unbounded ints need no overflow modelling.
-/

namespace SaltyBot

/-! ## `os.path.splitext` (posixpath semantics)

CPython splits off the extension at the last `.` of the final path
component, unless every character of that component before the last dot is
itself a dot (so `".txt"` has no extension). -/

/-- Split a character list at its last `'.'`: `some (before, fromDotOn)`
where `fromDotOn` starts with the last dot, or `none` when no dot occurs. -/
def splitAtLastDot : List Char → Option (List Char × List Char)
  | [] => none
  | c :: rest =>
    match splitAtLastDot rest with
    | some (b, e) => some (c :: b, e)
    | none => if c = '.' then some ([], c :: rest) else none

/-- Split a character list after its last `'/'`: `some (upToSlash, base)`
where `upToSlash` ends with the last slash, or `none` when no slash occurs. -/
def splitAtLastSep : List Char → Option (List Char × List Char)
  | [] => none
  | c :: rest =>
    match splitAtLastSep rest with
    | some (d, b) => some (c :: d, b)
    | none => if c = '/' then some ([c], rest) else none

/-- `os.path.splitext` of the source (posixpath): `(root, ext)`. -/
def splitext (p : String) : String × String :=
  let cs := p.data
  let (dir, base) :=
    match splitAtLastSep cs with
    | some (d, b) => (d, b)
    | none => (([] : List Char), cs)
  let lead := base.takeWhile (fun c => c = '.')
  let rest := base.dropWhile (fun c => c = '.')
  match splitAtLastDot rest with
  | some (b, e) => (String.mk (dir ++ lead ++ b), String.mk e)
  | none => (p, "")

/-! ## `str.format` with keyword arguments

`"{key}"` is replaced by the mapped value; `"{{"`/`"}}"` are literal
braces.  A missing key (KeyError), an unterminated or nested field
(ValueError) and a bare `"}"` (ValueError) all raise in Python, modelled
by `none`. -/

/-- One pass over the template.  The second argument is `some acc` while
scanning a field name (characters collected in reverse), `none` outside. -/
def fmtAux (m : List (String × String)) : List Char → Option (List Char) → Option (List Char)
  | [], none => some []
  | [], some _ => none
  | '{' :: '{' :: rest, none => (fmtAux m rest none).map (fun t => '{' :: t)
  | '}' :: '}' :: rest, none => (fmtAux m rest none).map (fun t => '}' :: t)
  | '{' :: rest, none => fmtAux m rest (some [])
  | '}' :: _, none => none
  | c :: rest, none => (fmtAux m rest none).map (fun t => c :: t)
  | '}' :: rest, some acc =>
    match m.lookup (String.mk acc.reverse) with
    | some v => (fmtAux m rest none).map (fun t => v.data ++ t)
    | none => none
  | '{' :: _, some _ => none
  | c :: rest, some acc => fmtAux m rest (some (c :: acc))

/-- Python's `template.format(**m)` restricted to plain `{key}` fields. -/
def pyFormat (template : String) (m : List (String × String)) : Option String :=
  (fmtAux m template.data none).map String.mk

/-! ## Image qualification and target-name derivation -/

/-- A fetched attachment: its filename and its declared content type
(`None` when the source did not declare one). -/
structure Attachment where
  filename : String
  content_type : Option String
deriving DecidableEq, Repr

/-- The fixed image-extension set of line 68 of the source. -/
def imageExts : List String :=
  [".png", ".jpg", ".jpeg", ".gif", ".webp", ".bmp", ".tiff"]

/-- Python's `str.lower` on one character, restricted to ASCII (every
string the program lower-cases and compares is ASCII). -/
def charLower (c : Char) : Char :=
  if 'A' ≤ c ∧ c ≤ 'Z' then Char.ofNat (c.toNat + 32) else c

/-- Python's `str.lower` (ASCII range). -/
def strLower (s : String) : String := String.mk (s.data.map charLower)

/-- Does the second list lead the first? -/
def leadsAux : List Char → List Char → Bool
  | _, [] => true
  | [], _ :: _ => false
  | c :: cs, d :: ds => c == d && leadsAux cs ds

/-- Python's `s.startswith(p)`. -/
def strStartsWith (s p : String) : Bool := leadsAux s.data p.data

/-- Lines 65-68: the declared content type (or `""`) starts with `"image/"`,
or the lower-cased filename extension is in the fixed set. -/
def is_image_attachment (att : Attachment) : Bool :=
  let ct := att.content_type.getD ""
  let ext := strLower (splitext att.filename).2
  strStartsWith ct "image/" || imageExts.contains ext

/-- The keyword arguments passed to `RENAME_PATTERN.format(...)` at lines
196-204 of the source. -/
def fmtMap (ts : String) (msgId : Nat) (filename : String)
    (authorId channelId : Nat) : List (String × String) :=
  let base := (splitext filename).1
  let ext := (splitext filename).2
  [("timestamp", ts), ("message_id", toString msgId), ("filename", filename),
   ("base", base), ("ext", ext), ("author_id", toString authorId),
   ("channel_id", toString channelId)]

/-- Lines 194-206: render the template, then append the original extension
when the rendered name has none.  `none` models a raised formatting error. -/
def derive_name (pattern ts : String) (msgId : Nat) (filename : String)
    (authorId channelId : Nat) : Option String :=
  let ext := (splitext filename).2
  match pyFormat pattern (fmtMap ts msgId filename authorId channelId) with
  | some new_name =>
    some (if (splitext new_name).2 = "" then new_name ++ ext else new_name)
  | none => none

/-! ## Persisted state and retry-count helpers -/

/-- The persisted state file: `last_message_id` and `retry_counts`
(a JSON object, modelled as an association list with unique keys). -/
structure BotState where
  last_message_id : Nat
  retry_counts : List (Nat × Nat)
deriving DecidableEq, Repr

/-- Lines 53-55: `int(retry_counts.get(str(msg_id), 0))`. -/
def get_retry_count (st : BotState) (msgId : Nat) : Nat :=
  match st.retry_counts.lookup msgId with
  | some c => c
  | none => 0

/-- `dict.pop(key, None)`: drop the entry for `k`. -/
def eraseKey (k : Nat) : List (Nat × Nat) → List (Nat × Nat)
  | [] => []
  | (k', v) :: rest =>
    if k' = k then eraseKey k rest else (k', v) :: eraseKey k rest

/-- `dict[key] = value`: replace the entry in place, or append it. -/
def upsert (k v : Nat) : List (Nat × Nat) → List (Nat × Nat)
  | [] => [(k, v)]
  | (k', v') :: rest =>
    if k' = k then (k, v) :: rest else (k', v') :: upsert k v rest

/-- Lines 57-63: a non-positive count pops the entry, otherwise it is
stored. -/
def set_retry_count (st : BotState) (msgId count : Nat) : BotState :=
  if count ≤ 0 then { st with retry_counts := eraseKey msgId st.retry_counts }
  else { st with retry_counts := upsert msgId count st.retry_counts }

/-! ## One tick of `check_channel`, up to the upload call

Lines 143-209: the decision taken by a tick given the state it loaded and
the newest fetched message; `none` for the message stands for both "channel
not found" and "no recent messages" (both return without saving). -/

/-- A fetched message. -/
structure Message where
  id : Nat
  author_id : Nat
  channel_id : Nat
  attachments : List Attachment
deriving DecidableEq, Repr

/-- What a tick does before any transport session is opened. -/
inductive TickDecision where
  /-- Return with no save and no upload (lines 150-152, 156-158, 167-169). -/
  | abort
  /-- Save `st` and return without any upload (lines 171-176, 184-189). -/
  | skipSave (st : BotState)
  /-- Open a transport session: upload `att`'s bytes under `newName`. -/
  | upload (att : Attachment) (newName : String)
  /-- The rename template raised while formatting (line 196). -/
  | formatError
deriving DecidableEq, Repr

/-- Lines 143-209 of `check_channel` as a pure decision function of the
loaded state, the fetched newest message and the tick's clock string. -/
def check_channel_decide (st : BotState) (msg? : Option Message)
    (ts pattern : String) : TickDecision :=
  match msg? with
  | none => .abort
  | some msg =>
    if msg.id ≤ st.last_message_id then .abort
    else if msg.attachments.isEmpty then
      .skipSave { st with last_message_id := msg.id }
    else
      match msg.attachments.find? is_image_attachment with
      | none => .skipSave { st with last_message_id := msg.id }
      | some att =>
        match derive_name pattern ts msg.id att.filename msg.author_id msg.channel_id with
        | some nm => .upload att nm
        | none => .formatError

/-! ## Interleaving of ticks and deferred retries

The asyncio event loop is single-threaded: code between two awaits runs
atomically.  The await-free blocks of the source that touch the state file
are:

* the tick's load (lines 145-146), which keeps the loaded object across the
  awaits of the tick and records `last_id` from it;
* the tick's skip save (lines 171-176 / 184-189) and success save (lines
  210-216), both of which write that possibly stale object back;
* the tick's failure block (lines 218-231), which reloads freshly, and its
  retry give-up tail (lines 228-230);
* a retry's failure block (lines 104-116) and success block (lines 118-123),
  both on a fresh load (line 105 / 118).

Each of those blocks is one event below.  Ticks never overlap each other
(`tasks.loop` waits for the body); retry tasks run concurrently with a
tick.  The channel is Discord: message ids strictly increase and messages
are assumed not to be deleted, so the newest message id presented to a tick
is never below any id presented before (`maxSeen ≤ m` in the tick guards);
a retry exists only for an id that a tick once fetched and failed on (the
`pending` list).  Real-time spacing of events is not modelled: any order
consistent with the guards is admitted, in line with the design's own
concurrency model (a retry's delay may span multiple tick periods, and
retry tasks run concurrently with later ticks). -/

/-- The whole system: the state file, the running tick's snapshot (the
object loaded at line 145 and `last_id`, while a tick is in flight), the
scheduled retry tasks, and the largest message id the channel has shown. -/
structure Sys where
  persisted : BotState
  tickSnap : Option (BotState × Nat)
  pending : List Nat
  maxSeen : Nat
deriving DecidableEq, Repr

/-- The atomic events of the model. -/
inductive Ev where
  /-- Lines 145-146: a new tick loads the state file. -/
  | tickLoad
  /-- Lines 150-158, 167-169: the tick returns without saving. -/
  | tickAbort
  /-- Lines 171-176 / 184-189: newest message `m` has no qualifying image;
  the tick saves its snapshot with the cursor set to `m`. -/
  | tickSkip (m : Nat)
  /-- Lines 209-216: the tick's upload of message `m` succeeded. -/
  | tickSuccess (m : Nat)
  /-- Lines 218-231: the tick's upload of message `m` failed. -/
  | tickFail (m : Nat)
  /-- Lines 118-123: a scheduled retry for message `m` uploads successfully. -/
  | retrySuccess (m : Nat)
  /-- Lines 104-116: a scheduled retry for message `m` fails again. -/
  | retryFail (m : Nat)
deriving DecidableEq, Repr

/-- One atomic event; `none` when the event is not enabled in `s`. -/
def step (s : Sys) : Ev → Option Sys
  | .tickLoad =>
    match s.tickSnap with
    | some _ => none
    | none => some { s with tickSnap := some (s.persisted, s.persisted.last_message_id) }
  | .tickAbort =>
    match s.tickSnap with
    | none => none
    | some _ => some { s with tickSnap := none }
  | .tickSkip m =>
    match s.tickSnap with
    | none => none
    | some (st0, last0) =>
      if last0 < m ∧ s.maxSeen ≤ m then
        some { persisted := { st0 with last_message_id := m },
               tickSnap := none, pending := s.pending, maxSeen := m }
      else none
  | .tickSuccess m =>
    match s.tickSnap with
    | none => none
    | some (st0, last0) =>
      if last0 < m ∧ s.maxSeen ≤ m then
        some { persisted := set_retry_count { st0 with last_message_id := m } m 0,
               tickSnap := none, pending := s.pending, maxSeen := m }
      else none
  | .tickFail m =>
    match s.tickSnap with
    | none => none
    | some (_, last0) =>
      if last0 < m ∧ s.maxSeen ≤ m then
        let c := get_retry_count s.persisted m + 1
        let st1 := set_retry_count s.persisted m c
        if c < 3 then
          some { persisted := st1, tickSnap := none,
                 pending := m :: s.pending, maxSeen := m }
        else
          some { persisted := set_retry_count { st1 with last_message_id := m } m 0,
                 tickSnap := none, pending := s.pending, maxSeen := m }
      else none
  | .retrySuccess m =>
    if s.pending.contains m then
      let st1 :=
        if s.persisted.last_message_id < m then
          { s.persisted with last_message_id := m }
        else s.persisted
      some { s with
               persisted := set_retry_count st1 m 0,
               pending := s.pending.erase m }
    else none
  | .retryFail m =>
    if s.pending.contains m then
      let c := get_retry_count s.persisted m + 1
      let st1 := set_retry_count s.persisted m c
      if c < 3 then
        some { s with persisted := st1, pending := m :: s.pending.erase m }
      else
        some { s with
                 persisted := set_retry_count { st1 with last_message_id := m } m 0,
                 pending := s.pending.erase m }
    else none

/-- The state of a fresh deployment: no state file yet, nothing in flight. -/
def init : Sys := ⟨⟨0, []⟩, none, [], 0⟩

/-- Run a sequence of events; `none` when one of them is not enabled. -/
def run : Sys → List Ev → Option Sys
  | s, [] => some s
  | s, e :: tr =>
    match step s e with
    | some s' => run s' tr
    | none => none

/-- A system state the deployment can actually be in. -/
def Reachable (s : Sys) : Prop := ∃ tr, run init tr = some s

/-! ## Loading the persisted state file

Lines 36-42 (`load_state`), the cursor extraction of line 146
(`int(state.get("last_message_id", "0"))`) and the counter extraction of
lines 53-55, over a small model of JSON values.  `none` models a raised
Python exception. -/

/-- A parsed JSON value (numbers restricted to integers, which covers
everything the program ever writes). -/
inductive JVal where
  | jnull
  | jbool (b : Bool)
  | jnum (n : Int)
  | jstr (s : String)
  | jarr (xs : List JVal)
  | jobj (fields : List (String × JVal))

/-- What the state file may hold: missing, unreadable (`read_text` raised),
not JSON (`json.loads` raised), or some parsed JSON value. -/
inductive Stored where
  | absent
  | unreadable
  | notJson
  | content (j : JVal)

/-- Lines 36-42: the raw value `load_state` returns.  Every failure mode is
swallowed into `{}`; a readable file yields whatever JSON it holds. -/
def load_state : Stored → JVal
  | .content j => j
  | _ => .jobj []

/-- Python's `x.get(key, dflt)`: `none` models the `AttributeError` raised
when `x` is not a dict. -/
def jGet (j : JVal) (key : String) (dflt : JVal) : Option JVal :=
  match j with
  | .jobj fields => some ((fields.lookup key).getD dflt)
  | _ => none

/-- The digits of a decimal literal, `none` when empty or not all digits. -/
def digitsToNat (cs : List Char) : Option Nat :=
  match cs with
  | [] => none
  | _ => cs.foldl
      (fun acc c => acc.bind fun n =>
        if c.isDigit then some (n * 10 + (c.toNat - '0'.toNat)) else none)
      (some 0)

/-- The characters of `s` with surrounding whitespace stripped. -/
def stripWs (s : String) : List Char :=
  ((s.data.dropWhile Char.isWhitespace).reverse.dropWhile Char.isWhitespace).reverse

/-- Python's `int(s)` on a string: optional surrounding whitespace, an
optional sign, then decimal digits; anything else raises (`none`). -/
def pyIntOfStr (s : String) : Option Int :=
  match stripWs s with
  | '-' :: ds => (digitsToNat ds).map (fun n => -(n : Int))
  | '+' :: ds => (digitsToNat ds).map (fun n => (n : Int))
  | ds => (digitsToNat ds).map (fun n => (n : Int))

/-- Python's `int(x)` on a JSON-decoded value: ints pass through, bools
count as 0/1, strings are parsed, everything else raises (`none`). -/
def pyInt : JVal → Option Int
  | .jnum n => some n
  | .jbool b => some (if b then 1 else 0)
  | .jstr s => pyIntOfStr s
  | _ => none

/-- Line 146: `int(state.get("last_message_id", "0"))` applied to the value
`load_state` returned; `none` models a raised exception. -/
def loadLastId (st : Stored) : Option Int :=
  (jGet (load_state st) "last_message_id" (.jstr "0")).bind pyInt

/-- Lines 53-55: `int(state.get("retry_counts", {}).get(str(msg_id), 0))`
applied to the value `load_state` returned. -/
def getRetryCountJ (st : Stored) (msgId : Nat) : Option Int :=
  (jGet (load_state st) "retry_counts" (.jobj [])).bind fun rc =>
    (jGet rc (toString msgId) (.jnum 0)).bind pyInt

/-! ## Basic lemmas about the state helpers -/

theorem set_retry_count_last (st : BotState) (m c : Nat) :
    (set_retry_count st m c).last_message_id = st.last_message_id := by
  unfold set_retry_count
  split <;> rfl

theorem lookup_eraseKey (k : Nat) (l : List (Nat × Nat)) :
    (eraseKey k l).lookup k = none := by
  induction l with
  | nil => rfl
  | cons p rest ih =>
    obtain ⟨k', v⟩ := p
    by_cases h : k' = k
    · simpa [eraseKey, h] using ih
    · have hne : (k == k') = false := beq_eq_false_iff_ne.mpr (fun he => h he.symm)
      simp [eraseKey, h, List.lookup, hne, ih]

theorem lookup_set_retry_count_zero (st : BotState) (m : Nat) :
    (set_retry_count st m 0).retry_counts.lookup m = none := by
  unfold set_retry_count
  simp [lookup_eraseKey]

/-! ## The reachability invariant

Every value the cursor or a pending retry can hold is an id some tick has
fetched, so it is bounded by `maxSeen`. -/

/-- The invariant of reachable system states. -/
def Inv (s : Sys) : Prop :=
    s.persisted.last_message_id ≤ s.maxSeen ∧ ∀ m ∈ s.pending, m ≤ s.maxSeen

theorem inv_init : Inv init := by
  constructor
  · exact Nat.le_refl 0
  · intro m hm
    simp [init] at hm

theorem inv_step {s s' : Sys} {e : Ev} (hInv : Inv s)
    (hstep : step s e = some s') : Inv s' := by
  obtain ⟨hlast, hpend⟩ := hInv
  cases e with
  | tickLoad =>
    cases hsnap : s.tickSnap with
    | some p => simp [step, hsnap] at hstep
    | none =>
      simp [step, hsnap] at hstep
      subst hstep
      exact ⟨hlast, hpend⟩
  | tickAbort =>
    cases hsnap : s.tickSnap with
    | none => simp [step, hsnap] at hstep
    | some p =>
      simp [step, hsnap] at hstep
      subst hstep
      exact ⟨hlast, hpend⟩
  | tickSkip m =>
    cases hsnap : s.tickSnap with
    | none => simp [step, hsnap] at hstep
    | some p =>
      obtain ⟨st0, last0⟩ := p
      simp only [step, hsnap] at hstep
      split at hstep
      · next hg =>
        cases hstep
        refine ⟨Nat.le_refl m, fun x hx => ?_⟩
        exact Nat.le_trans (hpend x hx) hg.2
      · exact absurd hstep (by simp)
  | tickSuccess m =>
    cases hsnap : s.tickSnap with
    | none => simp [step, hsnap] at hstep
    | some p =>
      obtain ⟨st0, last0⟩ := p
      simp only [step, hsnap] at hstep
      split at hstep
      · next hg =>
        cases hstep
        refine ⟨?_, fun x hx => Nat.le_trans (hpend x hx) hg.2⟩
        simp [set_retry_count_last]
      · exact absurd hstep (by simp)
  | tickFail m =>
    cases hsnap : s.tickSnap with
    | none => simp [step, hsnap] at hstep
    | some p =>
      obtain ⟨st0, last0⟩ := p
      simp only [step, hsnap] at hstep
      split at hstep
      · next hg =>
        split at hstep
        · cases hstep
          refine ⟨?_, fun x hx => ?_⟩
          · simpa [set_retry_count_last] using Nat.le_trans hlast hg.2
          · rcases List.mem_cons.mp hx with h | h
            · exact h ▸ Nat.le_refl m
            · exact Nat.le_trans (hpend x h) hg.2
        · cases hstep
          refine ⟨?_, fun x hx => Nat.le_trans (hpend x hx) hg.2⟩
          simp [set_retry_count_last]
      · exact absurd hstep (by simp)
  | retrySuccess m =>
    simp only [step] at hstep
    split at hstep
    · next hmem =>
      cases hstep
      have hm : m ≤ s.maxSeen := hpend m (List.mem_of_elem_eq_true hmem)
      refine ⟨?_, fun x hx => hpend x (List.mem_of_mem_erase hx)⟩
      rw [set_retry_count_last]
      split
      · exact hm
      · exact hlast
    · exact absurd hstep (by simp)
  | retryFail m =>
    simp only [step] at hstep
    split at hstep
    · next hmem =>
      have hm : m ≤ s.maxSeen := hpend m (List.mem_of_elem_eq_true hmem)
      split at hstep
      · cases hstep
        refine ⟨by simpa [set_retry_count_last] using hlast, fun x hx => ?_⟩
        rcases List.mem_cons.mp hx with h | h
        · exact h ▸ hm
        · exact hpend x (List.mem_of_mem_erase h)
      · cases hstep
        refine ⟨by simpa [set_retry_count_last] using hm,
          fun x hx => hpend x (List.mem_of_mem_erase hx)⟩
    · exact absurd hstep (by simp)

theorem run_inv : ∀ (tr : List Ev) (s s' : Sys),
    Inv s → run s tr = some s' → Inv s' := by
  intro tr
  induction tr with
  | nil =>
    intro s s' h hr
    simp [run] at hr
    exact hr ▸ h
  | cons e tr ih =>
    intro s s' h hr
    simp only [run] at hr
    cases hstep : step s e with
    | none => rw [hstep] at hr; exact absurd hr (by simp)
    | some s₁ =>
      rw [hstep] at hr
      exact ih s₁ s' (inv_step h hstep) hr

theorem reachable_inv {s : Sys} (h : Reachable s) : Inv s := by
  obtain ⟨tr, hr⟩ := h
  exact run_inv tr init s inv_init hr

/-! ## Delivery attempts and shielding

Machinery for the bounded-retry claims: which events are delivery attempts
(calls of `try_upload_once`) for a given message, and the conditions under
which no further attempt for that message can ever run. -/

/-- `true` when the event is a delivery attempt (a `try_upload_once` call,
line 90) for message `m`. -/
def deliveryAttempt (m : Nat) : Ev → Bool
  | .tickSuccess m' => m' == m
  | .tickFail m' => m' == m
  | .retrySuccess m' => m' == m
  | .retryFail m' => m' == m
  | _ => false

/-- Along the run of `tr` from `s`, the persisted cursor never falls below
`m`. -/
def cursorStaysGE (m : Nat) : Sys → List Ev → Prop
  | _, [] => True
  | s, e :: tr => ∀ s', step s e = some s' →
      m ≤ s'.persisted.last_message_id ∧ cursorStaysGE m s' tr

/-- Message `m` is out of reach: the cursor has passed it, no retry task for
it is scheduled, and no in-flight tick loaded a cursor below it. -/
def Shielded (m : Nat) (s : Sys) : Prop :=
  m ≤ s.persisted.last_message_id ∧ s.pending.contains m = false ∧
    ∀ st0 l0, s.tickSnap = some (st0, l0) → m ≤ l0

theorem contains_eq_false {l : List Nat} {a : Nat} (h : a ∉ l) :
    l.contains a = false := by
  cases hc : l.contains a
  · rfl
  · have hmem : a ∈ l := List.elem_iff.mp hc
    exact absurd hmem h

theorem shielded_step {m : Nat} {s s' : Sys} {e : Ev}
    (hS : Shielded m s) (hstep : step s e = some s')
    (hge : m ≤ s'.persisted.last_message_id) :
    Shielded m s' ∧ deliveryAttempt m e = false := by
  obtain ⟨hcur, hpend, hsnapGE⟩ := hS
  have hnotmem : m ∉ s.pending := by
    intro h
    have hc : s.pending.contains m = true := List.elem_iff.mpr h
    rw [hpend] at hc
    exact Bool.false_ne_true hc
  cases e with
  | tickLoad =>
    cases hsnap : s.tickSnap with
    | some p => simp [step, hsnap] at hstep
    | none =>
      simp [step, hsnap] at hstep
      subst hstep
      refine ⟨⟨hcur, hpend, ?_⟩, rfl⟩
      intro st0 l0 h0
      simp at h0
      exact h0.2 ▸ hcur
  | tickAbort =>
    cases hsnap : s.tickSnap with
    | none => simp [step, hsnap] at hstep
    | some p =>
      simp [step, hsnap] at hstep
      subst hstep
      exact ⟨⟨hcur, hpend, by simp⟩, rfl⟩
  | tickSkip m' =>
    cases hsnap : s.tickSnap with
    | none => simp [step, hsnap] at hstep
    | some p =>
      obtain ⟨st0, last0⟩ := p
      simp only [step, hsnap] at hstep
      split at hstep
      · cases hstep
        exact ⟨⟨hge, hpend, by simp⟩, rfl⟩
      · exact absurd hstep (by simp)
  | tickSuccess m' =>
    cases hsnap : s.tickSnap with
    | none => simp [step, hsnap] at hstep
    | some p =>
      obtain ⟨st0, last0⟩ := p
      simp only [step, hsnap] at hstep
      split at hstep
      · next hg =>
        cases hstep
        have hne : m' ≠ m := by
          intro he
          have := hsnapGE st0 last0 hsnap
          omega
        refine ⟨⟨hge, hpend, by simp⟩, ?_⟩
        simpa [deliveryAttempt] using hne
      · exact absurd hstep (by simp)
  | tickFail m' =>
    cases hsnap : s.tickSnap with
    | none => simp [step, hsnap] at hstep
    | some p =>
      obtain ⟨st0, last0⟩ := p
      simp only [step, hsnap] at hstep
      split at hstep
      · next hg =>
        have hne : m' ≠ m := by
          intro he
          have := hsnapGE st0 last0 hsnap
          omega
        split at hstep
        · cases hstep
          refine ⟨⟨hge, ?_, by simp⟩, by simpa [deliveryAttempt] using hne⟩
          apply contains_eq_false
          intro hx
          rcases List.mem_cons.mp hx with hx | hx
          · exact hne hx.symm
          · exact hnotmem hx
        · cases hstep
          exact ⟨⟨hge, hpend, by simp⟩, by simpa [deliveryAttempt] using hne⟩
      · exact absurd hstep (by simp)
  | retrySuccess m' =>
    simp only [step] at hstep
    split at hstep
    · next hmem =>
      cases hstep
      have hne : m' ≠ m := by
        intro he
        exact hnotmem (he ▸ List.mem_of_elem_eq_true hmem)
      have hmem' : m ∉ s.pending.erase m' := fun h =>
        hnotmem (List.mem_of_mem_erase h)
      refine ⟨⟨hge, contains_eq_false hmem', hsnapGE⟩, ?_⟩
      simpa [deliveryAttempt] using hne
    · exact absurd hstep (by simp)
  | retryFail m' =>
    simp only [step] at hstep
    split at hstep
    · next hmem =>
      have hne : m' ≠ m := by
        intro he
        exact hnotmem (he ▸ List.mem_of_elem_eq_true hmem)
      have hmem' : m ∉ s.pending.erase m' := fun h =>
        hnotmem (List.mem_of_mem_erase h)
      split at hstep
      · cases hstep
        refine ⟨⟨hge, ?_, hsnapGE⟩, by simpa [deliveryAttempt] using hne⟩
        apply contains_eq_false
        intro hx
        rcases List.mem_cons.mp hx with hx | hx
        · exact hne hx.symm
        · exact hmem' hx
      · cases hstep
        refine ⟨⟨hge, contains_eq_false hmem', hsnapGE⟩, ?_⟩
        simpa [deliveryAttempt] using hne
    · exact absurd hstep (by simp)

theorem shielded_run {m : Nat} : ∀ (tr : List Ev) (s s' : Sys),
    Shielded m s → run s tr = some s' → cursorStaysGE m s tr →
    tr.filter (deliveryAttempt m) = [] := by
  intro tr
  induction tr with
  | nil => intro s s' _ _ _; rfl
  | cons e tr ih =>
    intro s s' hS hr hge
    simp only [run] at hr
    cases hstep : step s e with
    | none => rw [hstep] at hr; exact absurd hr (by simp)
    | some s₁ =>
      rw [hstep] at hr
      obtain ⟨hge₁, hstays⟩ := hge s₁ hstep
      obtain ⟨hS₁, hatt⟩ := shielded_step hS hstep hge₁
      simp only [List.filter, hatt]
      exact ih s₁ s' hS₁ hr hstays

/-! ## First-match decomposition of `List.find?` -/

theorem find?_first {α : Type} {p : α → Bool} {l : List α} {a : α}
    (h : l.find? p = some a) :
    p a = true ∧ ∃ pre post, l = pre ++ a :: post ∧ ∀ b ∈ pre, p b = false := by
  induction l with
  | nil => simp [List.find?] at h
  | cons c rest ih =>
    by_cases hc : p c
    · rw [List.find?_cons_of_pos _ hc] at h
      cases h
      exact ⟨hc, [], rest, rfl, by simp⟩
    · rw [List.find?_cons_of_neg _ (by simpa using hc)] at h
      obtain ⟨hpa, pre, post, hl, hpre⟩ := ih h
      refine ⟨hpa, c :: pre, post, by simp [hl], ?_⟩
      intro b hb
      rcases List.mem_cons.mp hb with hb | hb
      · exact hb ▸ (by simpa using hc)
      · exact hpre b hb

/-! ## Claim C1: monotonicity of the persisted cursor -/

/-- Claim C1 as stated: every state-file write of the five writing
operations leaves `last_message_id` no smaller, in every reachable
interleaving of a tick with a pending retry. -/
def CursorNonDecreasing : Prop :=
  ∀ s e s', Reachable s → step s e = some s' →
    s.persisted.last_message_id ≤ s'.persisted.last_message_id

/-- C1 fails on the code: a tick fails on message 1 and schedules a retry,
the next tick skips message 2 (cursor = 2), then the retry for message 1
exhausts its attempts and the give-up write at lines 113-115 sets the
cursor back to 1 unconditionally — there is no `msg_id > current_last`
guard on that path, unlike line 120. -/
theorem C1_counterexample : ¬ CursorNonDecreasing := by
  intro h
  have hreach : Reachable ⟨⟨2, [(1, 2)]⟩, none, [1], 2⟩ :=
    ⟨[Ev.tickLoad, Ev.tickFail 1, Ev.tickLoad, Ev.tickSkip 2, Ev.retryFail 1],
      by decide⟩
  have hstep : step ⟨⟨2, [(1, 2)]⟩, none, [1], 2⟩ (Ev.retryFail 1) =
      some ⟨⟨1, []⟩, none, [], 2⟩ := by decide
  exact absurd (h _ _ _ hreach hstep) (by decide)

/-- Claim C1 amended: every state-file write leaves the persisted cursor no
smaller, except the retry give-up write (third consecutive failure of a
deferred retry), which sets it to exactly the retried message's id — and
may thereby decrease it, as `C1_counterexample` shows. -/
theorem C1_amended (s : Sys) (e : Ev) (s' : Sys)
    (hr : Reachable s) (hstep : step s e = some s') :
    s.persisted.last_message_id ≤ s'.persisted.last_message_id ∨
      ∃ m, e = Ev.retryFail m ∧ 3 ≤ get_retry_count s.persisted m + 1 ∧
        s'.persisted.last_message_id = m := by
  obtain ⟨hlast, hpend⟩ := reachable_inv hr
  cases e with
  | tickLoad =>
    cases hsnap : s.tickSnap with
    | some p => simp [step, hsnap] at hstep
    | none =>
      simp [step, hsnap] at hstep
      subst hstep
      exact Or.inl (Nat.le_refl _)
  | tickAbort =>
    cases hsnap : s.tickSnap with
    | none => simp [step, hsnap] at hstep
    | some p =>
      simp [step, hsnap] at hstep
      subst hstep
      exact Or.inl (Nat.le_refl _)
  | tickSkip m =>
    cases hsnap : s.tickSnap with
    | none => simp [step, hsnap] at hstep
    | some p =>
      obtain ⟨st0, last0⟩ := p
      simp only [step, hsnap] at hstep
      split at hstep
      · next hg =>
        cases hstep
        exact Or.inl (Nat.le_trans hlast hg.2)
      · exact absurd hstep (by simp)
  | tickSuccess m =>
    cases hsnap : s.tickSnap with
    | none => simp [step, hsnap] at hstep
    | some p =>
      obtain ⟨st0, last0⟩ := p
      simp only [step, hsnap] at hstep
      split at hstep
      · next hg =>
        cases hstep
        refine Or.inl ?_
        rw [set_retry_count_last]
        exact Nat.le_trans hlast hg.2
      · exact absurd hstep (by simp)
  | tickFail m =>
    cases hsnap : s.tickSnap with
    | none => simp [step, hsnap] at hstep
    | some p =>
      obtain ⟨st0, last0⟩ := p
      simp only [step, hsnap] at hstep
      split at hstep
      · next hg =>
        split at hstep
        · cases hstep
          refine Or.inl ?_
          rw [set_retry_count_last]
        · cases hstep
          refine Or.inl ?_
          rw [set_retry_count_last]
          exact Nat.le_trans hlast hg.2
      · exact absurd hstep (by simp)
  | retrySuccess m =>
    simp only [step] at hstep
    split at hstep
    · cases hstep
      refine Or.inl ?_
      rw [set_retry_count_last]
      split
      · next hc => exact Nat.le_of_lt hc
      · exact Nat.le_refl _
    · exact absurd hstep (by simp)
  | retryFail m =>
    simp only [step] at hstep
    split at hstep
    · split at hstep
      · cases hstep
        refine Or.inl ?_
        rw [set_retry_count_last]
      · next hc =>
        cases hstep
        refine Or.inr ⟨m, rfl, by omega, ?_⟩
        rw [set_retry_count_last]
    · exact absurd hstep (by simp)

theorem C1_amended_witness :
    init.persisted.last_message_id ≤
        (⟨⟨0, []⟩, some (⟨0, []⟩, 0), [], 0⟩ : Sys).persisted.last_message_id ∨
      ∃ m, Ev.tickLoad = Ev.retryFail m ∧
        3 ≤ get_retry_count init.persisted m + 1 ∧
        (⟨⟨0, []⟩, some (⟨0, []⟩, 0), [], 0⟩ : Sys).persisted.last_message_id = m :=
  C1_amended init Ev.tickLoad ⟨⟨0, []⟩, some (⟨0, []⟩, 0), [], 0⟩ ⟨[], rfl⟩ rfl

/-! ## Claim C3: the guarded success write -/

/-- Claim C3: after any successful delivery write (tick success, lines
210-216, or retry success, lines 118-123), the persisted cursor equals the
old persisted cursor if that was already ≥ the message id and the message
id otherwise, the retry entry for the id is gone, and the result is
persisted.  On the retry path this is the explicit `msg_id > current_last`
guard of line 120; on the tick path the write is unconditional but the
reachability invariant (`persisted ≤ maxSeen ≤ msg.id`) makes it
observationally identical to the guarded write. -/
theorem C3_success_guard (s s' : Sys) (m : Nat) (hr : Reachable s)
    (h : step s (Ev.tickSuccess m) = some s' ∨
      step s (Ev.retrySuccess m) = some s') :
    s'.persisted.last_message_id =
        (if s.persisted.last_message_id < m then m
         else s.persisted.last_message_id) ∧
      s'.persisted.retry_counts.lookup m = none := by
  obtain ⟨hlast, hpend⟩ := reachable_inv hr
  rcases h with h | h
  · cases hsnap : s.tickSnap with
    | none => simp [step, hsnap] at h
    | some p =>
      obtain ⟨st0, last0⟩ := p
      simp only [step, hsnap] at h
      split at h
      · next hg =>
        cases h
        have hle : s.persisted.last_message_id ≤ m := Nat.le_trans hlast hg.2
        refine ⟨?_, lookup_set_retry_count_zero _ _⟩
        rw [set_retry_count_last]
        show m = if s.persisted.last_message_id < m then m
          else s.persisted.last_message_id
        split
        · rfl
        · next hc => omega
      · exact absurd h (by simp)
  · simp only [step] at h
    split at h
    · cases h
      refine ⟨?_, lookup_set_retry_count_zero _ _⟩
      rw [set_retry_count_last]
      by_cases hc : s.persisted.last_message_id < m <;> simp [hc]
    · exact absurd h (by simp)

theorem C3_witness :
    (⟨⟨1, []⟩, none, [], 1⟩ : Sys).persisted.last_message_id =
        (if (⟨⟨0, [(1, 1)]⟩, none, [1], 1⟩ : Sys).persisted.last_message_id < 1
         then 1
         else (⟨⟨0, [(1, 1)]⟩, none, [1], 1⟩ : Sys).persisted.last_message_id) ∧
      (⟨⟨1, []⟩, none, [], 1⟩ : Sys).persisted.retry_counts.lookup 1 = none :=
  C3_success_guard ⟨⟨0, [(1, 1)]⟩, none, [1], 1⟩ ⟨⟨1, []⟩, none, [], 1⟩ 1
    ⟨[Ev.tickLoad, Ev.tickFail 1], by decide⟩ (Or.inr (by decide))

/-! ## Claim C2: bounded retries, give-up, no 4th attempt -/

/-- The load-bearing conjunct of claim C2 as stated: once a message's
delivery has failed 3 consecutive times (one tick attempt, two deferred
retries), no 4th delivery attempt is ever made for it, in any reachable
execution. -/
def NoFourthAttempt : Prop :=
  ∀ m tr s, run init tr = some s →
    (tr.filter (deliveryAttempt m)).take 3 =
      [Ev.tickFail m, Ev.retryFail m, Ev.retryFail m] →
    (tr.filter (deliveryAttempt m)).length ≤ 3

/-- C2 fails on the code: message 1 fails its tick attempt (count 1) and
its first deferred retry (count 2); the next tick, which loaded its state
object before that retry resolved, then delivers message 2 successfully
and writes the stale object back (lines 210-216), resetting message 1's
count to 1.  Message 1's second deferred retry — its third consecutive
failure — therefore computes count 2 < 3 at line 110: it does not give up,
does not advance the cursor, leaves the counter entry present, and
schedules a further retry, whose execution is a 4th delivery attempt. -/
theorem C2_counterexample : ¬ NoFourthAttempt := by
  intro h
  have := h 1
    [Ev.tickLoad, Ev.tickFail 1, Ev.tickLoad, Ev.retryFail 1, Ev.tickSuccess 2,
      Ev.retryFail 1, Ev.retryFail 1]
    ⟨⟨1, []⟩, none, [], 2⟩ (by decide) (by decide)
  exact absurd this (by decide)

/-- Claim C2 amended: when a message fails its tick attempt and both
deferred retries with nothing else interleaved, the give-up write leaves
the cursor at the message's id, no retry-counter entry and no pending
retry task for it; and no 4th attempt for it occurs in any continuation
throughout which the persisted cursor stays at or above its id.  (Both
provisos are forced: a stale tick-success save interleaved into the
failure sequence can reset the retry count so the third failure does not
give up, and a retry give-up for a different message can push the
persisted cursor back below the id, after which a tick may attempt the
message a 4th time.) -/
theorem C2_amended (m : Nat) (s₀ : Sys)
    (h0 : run init [Ev.tickLoad, Ev.tickFail m, Ev.retryFail m, Ev.retryFail m] =
      some s₀) :
    s₀.persisted.last_message_id = m ∧
      s₀.persisted.retry_counts.lookup m = none ∧ s₀.pending = [] ∧
      ∀ tr s', run s₀ tr = some s' → cursorStaysGE m s₀ tr →
        tr.filter (deliveryAttempt m) = [] := by
  rcases Nat.eq_zero_or_pos m with hm | hm
  · subst hm
    rw [show run init [Ev.tickLoad, Ev.tickFail 0, Ev.retryFail 0, Ev.retryFail 0] =
      none from by decide] at h0
    exact Option.noConfusion h0
  · have e1 : step init Ev.tickLoad = some ⟨⟨0, []⟩, some (⟨0, []⟩, 0), [], 0⟩ := rfl
    have e2 : step ⟨⟨0, []⟩, some (⟨0, []⟩, 0), [], 0⟩ (Ev.tickFail m) =
        some ⟨⟨0, [(m, 1)]⟩, none, [m], m⟩ := by
      simp only [step]
      rw [if_pos ⟨hm, Nat.zero_le m⟩]
      simp [get_retry_count, set_retry_count, upsert, List.lookup]
    have e3 : step ⟨⟨0, [(m, 1)]⟩, none, [m], m⟩ (Ev.retryFail m) =
        some ⟨⟨0, [(m, 2)]⟩, none, [m], m⟩ := by
      simp [step, get_retry_count, set_retry_count, upsert, List.lookup]
    have e4 : step ⟨⟨0, [(m, 2)]⟩, none, [m], m⟩ (Ev.retryFail m) =
        some ⟨⟨m, []⟩, none, [], m⟩ := by
      simp [step, get_retry_count, set_retry_count, upsert, eraseKey, List.lookup]
    rw [show run init [Ev.tickLoad, Ev.tickFail m, Ev.retryFail m, Ev.retryFail m] =
      some ⟨⟨m, []⟩, none, [], m⟩ from by simp [run, e1, e2, e3, e4]] at h0
    replace h0 := Option.some.inj h0
    subst h0
    refine ⟨rfl, rfl, rfl, ?_⟩
    intro tr s' hrun hstays
    have hS : Shielded m ⟨⟨m, []⟩, none, [], m⟩ :=
      ⟨Nat.le_refl m, rfl, fun st0 l0 hc => Option.noConfusion hc⟩
    exact shielded_run tr ⟨⟨m, []⟩, none, [], m⟩ s' hS hrun hstays

theorem C2_witness :
    run init [Ev.tickLoad, Ev.tickFail 7, Ev.retryFail 7, Ev.retryFail 7] =
        some ⟨⟨7, []⟩, none, [], 7⟩ ∧
      ((⟨⟨7, []⟩, none, [], 7⟩ : Sys).persisted.last_message_id = 7 ∧
        (⟨⟨7, []⟩, none, [], 7⟩ : Sys).persisted.retry_counts.lookup 7 = none ∧
        (⟨⟨7, []⟩, none, [], 7⟩ : Sys).pending = [] ∧
        ∀ tr s', run (⟨⟨7, []⟩, none, [], 7⟩ : Sys) tr = some s' →
          cursorStaysGE 7 (⟨⟨7, []⟩, none, [], 7⟩ : Sys) tr →
          tr.filter (deliveryAttempt 7) = []) :=
  ⟨by decide, C2_amended 7 ⟨⟨7, []⟩, none, [], 7⟩ (by decide)⟩

/-! ## Claim C9: retry-counter entries and resolution -/

/-- The event `e`, taken from system state `s`, resolves message `m`'s
delivery: a successful upload, or a failure whose incremented count reaches
the give-up threshold of 3. -/
def resolves (s : Sys) (e : Ev) (m : Nat) : Prop :=
  e = Ev.retrySuccess m ∨ e = Ev.tickSuccess m ∨
    ((e = Ev.retryFail m ∨ e = Ev.tickFail m) ∧
      3 ≤ get_retry_count s.persisted m + 1)

/-- Claim C9 as stated: `set_retry_count` with count 0 removes the entry,
and once a message's delivery is resolved, every state persisted from then
on lacks its retry-counter entry. -/
def RetryEntryGone : Prop :=
  (∀ st m, (set_retry_count st m 0).retry_counts.lookup m = none) ∧
    ∀ s₁ e s₂ tr s₃ m, Reachable s₁ → step s₁ e = some s₂ →
      run s₂ tr = some s₃ → resolves s₁ e m →
      s₃.persisted.retry_counts.lookup m = none

/-- C9 fails on the code: a tick loads its state object (line 145) while a
retry for message 1 is pending, the retry then resolves successfully and
clears the entry, but the tick's success path (lines 210-216) writes its
stale object back, re-persisting the cleared entry `(1, 1)` — the
whole-file last-writer-wins save of §5 of the design. -/
theorem C9_counterexample : ¬ RetryEntryGone := by
  intro hcl
  have h := hcl.2 ⟨⟨0, [(1, 1)]⟩, some (⟨0, [(1, 1)]⟩, 0), [1], 1⟩
    (Ev.retrySuccess 1) ⟨⟨1, []⟩, some (⟨0, [(1, 1)]⟩, 0), [], 1⟩
    [Ev.tickSuccess 2] ⟨⟨2, [(1, 1)]⟩, none, [], 2⟩ 1
    ⟨[Ev.tickLoad, Ev.tickFail 1, Ev.tickLoad], by decide⟩
    (by decide) (by decide) (Or.inl rfl)
  exact absurd h (by decide)

/-- Claim C9 amended: `set_retry_count` with count 0 removes the entry
rather than storing zero, and the state that a resolving write itself
persists lacks the entry.  (Entries can reappear in later persisted
states: a concurrent tick that loaded its state object before the
resolution writes that stale object back - states persisted after that are
not entry-free, which is what forces the amendment.) -/
theorem C9_amended :
    (∀ st m, (set_retry_count st m 0).retry_counts.lookup m = none) ∧
      ∀ s e s' m, step s e = some s' → resolves s e m →
        s'.persisted.retry_counts.lookup m = none := by
  refine ⟨lookup_set_retry_count_zero, ?_⟩
  intro s e s' m hstep hres
  rcases hres with h | h | ⟨h, hc⟩
  · subst h
    simp only [step] at hstep
    split at hstep
    · cases hstep
      exact lookup_set_retry_count_zero _ _
    · exact absurd hstep (by simp)
  · subst h
    cases hsnap : s.tickSnap with
    | none => simp [step, hsnap] at hstep
    | some p =>
      obtain ⟨st0, last0⟩ := p
      simp only [step, hsnap] at hstep
      split at hstep
      · cases hstep
        exact lookup_set_retry_count_zero _ _
      · exact absurd hstep (by simp)
  · rcases h with h | h
    · subst h
      simp only [step] at hstep
      split at hstep
      · split at hstep
        · next hlt => omega
        · cases hstep
          exact lookup_set_retry_count_zero _ _
      · exact absurd hstep (by simp)
    · subst h
      cases hsnap : s.tickSnap with
      | none => simp [step, hsnap] at hstep
      | some p =>
        obtain ⟨st0, last0⟩ := p
        simp only [step, hsnap] at hstep
        split at hstep
        · split at hstep
          · next hlt => omega
          · cases hstep
            exact lookup_set_retry_count_zero _ _
        · exact absurd hstep (by simp)

theorem C9_witness :
    (⟨⟨1, []⟩, none, [], 5⟩ : Sys).persisted.retry_counts.lookup 1 = none :=
  C9_amended.2 ⟨⟨0, [(1, 2)]⟩, none, [1], 5⟩ (Ev.retrySuccess 1)
    ⟨⟨1, []⟩, none, [], 5⟩ 1 (by decide) (Or.inl rfl)

/-! ## Claim C4: non-qualifying newest message consumes the cursor -/

/-- Claim C4: a tick whose newest message is newer than the cursor but has
no attachments, or attachments none of which qualify as an image, saves
the state with the cursor advanced to the message id and opens no
transport session (the decision is `skipSave`, which the source reaches
at lines 171-176 / 184-189 before any upload call). -/
theorem C4_skip (st : BotState) (msg : Message) (ts pattern : String)
    (hnew : st.last_message_id < msg.id)
    (hno : msg.attachments = [] ∨
      ∀ a ∈ msg.attachments, is_image_attachment a = false) :
    check_channel_decide st (some msg) ts pattern =
      .skipSave { st with last_message_id := msg.id } := by
  have hguard : ¬ msg.id ≤ st.last_message_id := by omega
  rcases hno with h | h
  · simp [check_channel_decide, hguard, h]
  · have hfind : msg.attachments.find? is_image_attachment = none :=
      List.find?_eq_none.mpr (fun a ha => by simp [h a ha])
    by_cases hemp : msg.attachments.isEmpty
    · simp [check_channel_decide, hguard, hemp]
    · simp [check_channel_decide, hguard, hemp, hfind]

theorem C4_witness :
    check_channel_decide ⟨0, []⟩ (some ⟨100, 1, 1, [⟨"notes.txt", none⟩]⟩) "ts"
        "{timestamp}_{message_id}_{filename}" =
      .skipSave ⟨100, []⟩ :=
  C4_skip ⟨0, []⟩ ⟨100, 1, 1, [⟨"notes.txt", none⟩]⟩ "ts"
    "{timestamp}_{message_id}_{filename}" (by decide) (Or.inr (by decide))

/-! ## Claim C5: stale newest message aborts the tick -/

/-- `true` when the event is a successful delivery of message `m`. -/
def successFor (m : Nat) : Ev → Bool
  | .tickSuccess m' => m' == m
  | .retrySuccess m' => m' == m
  | _ => false

/-- Claim C5 as stated: a tick whose fetched newest message id is ≤ the
loaded cursor aborts with no state change and no delivery attempt, so no
message is ever relayed twice (formalised: no reachable execution delivers
the same message successfully twice). -/
def NoDoubleRelay : Prop :=
  (∀ st msg ts pattern, (msg : Message).id ≤ st.last_message_id →
      check_channel_decide st (some msg) ts pattern = .abort) ∧
    ∀ tr s m, run init tr = some s → (tr.filter (successFor m)).length ≤ 1

/-- The final clause of C5 fails on the code: message 1 fails its tick
attempt (a retry is scheduled, the cursor stays at 0), the next tick
re-fetches the still-newest message 1 — which passes the line-167 guard
because the cursor never advanced — and uploads it successfully, and the
pending retry then also uploads it successfully: the same message is
relayed twice. -/
theorem C5_counterexample : ¬ NoDoubleRelay := by
  intro hcl
  have := hcl.2
    [Ev.tickLoad, Ev.tickFail 1, Ev.tickLoad, Ev.tickSuccess 1, Ev.retrySuccess 1]
    ⟨⟨1, []⟩, none, [], 1⟩ 1 (by decide)
  exact absurd this (by decide)

/-- Claim C5 amended: every tick whose fetched newest message id is ≤ the
loaded `last_message_id` aborts with no state change and no delivery
attempt (`abort` is the line 167-169 return, before any save or upload).
This prevents re-relaying a message the cursor has passed; it does not
prevent the double delivery of a message whose failed tick attempt left a
pending retry while a later tick re-attempts it, which is what forces the
amendment of the "never relayed twice" clause. -/
theorem C5_amended (st : BotState) (msg : Message) (ts pattern : String)
    (h : msg.id ≤ st.last_message_id) :
    check_channel_decide st (some msg) ts pattern = .abort := by
  simp [check_channel_decide, h]

theorem C5_witness :
    check_channel_decide ⟨100, []⟩ (some ⟨100, 1, 1, []⟩) "ts" "{filename}" =
      .abort :=
  C5_amended ⟨100, []⟩ ⟨100, 1, 1, []⟩ "ts" "{filename}" (by decide)

/-! ## Claim C6: target-name derivation -/

/-- Claim C6: the derivation is a pure function of its inputs (so it is
deterministic for a fixed timestamp); the spec's example renders to
exactly `20240101T000000Z_42_photo.PNG` with no extension appended, for
any author and channel id; and in general a successfully rendered name is
used unchanged when it has an extension and gets the original attachment's
extension appended when it has none. -/
theorem C6_rename :
    (∀ a c, derive_name "{timestamp}_{message_id}_{filename}" "20240101T000000Z"
        42 "photo.PNG" a c = some "20240101T000000Z_42_photo.PNG") ∧
      ∀ pattern ts msgId filename authorId channelId nm,
        pyFormat pattern (fmtMap ts msgId filename authorId channelId) = some nm →
        derive_name pattern ts msgId filename authorId channelId =
          some (if (splitext nm).2 = "" then nm ++ (splitext filename).2 else nm) := by
  constructor
  · intro a c
    rfl
  · intro pattern ts msgId filename authorId channelId nm h
    simp [derive_name, h]

theorem C6_witness :
    pyFormat "{base}" (fmtMap "ts" 5 "photo.PNG" 1 2) = some "photo" ∧
      derive_name "{base}" "ts" 5 "photo.PNG" 1 2 =
        some (if (splitext "photo").2 = "" then "photo" ++ (splitext "photo.PNG").2
          else "photo") :=
  ⟨rfl, C6_rename.2 "{base}" "ts" 5 "photo.PNG" 1 2 "photo" rfl⟩

/-! ## Claim C7: the qualification predicate and first-match selection -/

/-- Claim C7: an attachment qualifies exactly when its declared content
kind starts with `image/` or its (lower-cased) filename extension is in
the fixed set — a pure predicate — and the attachment a tick hands to the
delivery path is the first qualifying one in the message's attachment
list. -/
theorem C7_select :
    (∀ att : Attachment, is_image_attachment att = true ↔
        (strStartsWith (att.content_type.getD "") "image/" = true ∨
          strLower (splitext att.filename).2 ∈ imageExts)) ∧
      ∀ st msg ts pattern att nm,
        check_channel_decide st (some msg) ts pattern = .upload att nm →
        is_image_attachment att = true ∧
          ∃ pre post, msg.attachments = pre ++ att :: post ∧
            ∀ b ∈ pre, is_image_attachment b = false := by
  constructor
  · intro att
    simp [is_image_attachment, Bool.or_eq_true, List.elem_iff]
  · intro st msg ts pattern att nm h
    simp only [check_channel_decide] at h
    split at h
    · exact absurd h (by simp)
    · split at h
      · exact absurd h (by simp)
      · split at h
        · exact absurd h (by simp)
        · next a hfind =>
          split at h
          · next nm' hdn =>
            simp only [TickDecision.upload.injEq] at h
            obtain ⟨rfl, rfl⟩ := h
            obtain ⟨hp, pre, post, hl, hpre⟩ := find?_first hfind
            exact ⟨hp, pre, post, hl, hpre⟩
          · exact absurd h (by simp)

theorem C7_witness :
    is_image_attachment ⟨"b.png", none⟩ = true ∧
      ∃ pre post,
        [(⟨"a.txt", none⟩ : Attachment), ⟨"b.png", none⟩] =
          pre ++ (⟨"b.png", none⟩ : Attachment) :: post ∧
        ∀ b ∈ pre, is_image_attachment b = false :=
  C7_select.2 ⟨0, []⟩ ⟨5, 1, 1, [⟨"a.txt", none⟩, ⟨"b.png", none⟩]⟩ "ts"
    "{filename}" ⟨"b.png", none⟩ "b.png" (by decide)

/-! ## Claim C8: loading the persisted state never raises -/

/-- Claim C8 as stated: for every possible content of the state file, the
cursor extraction and the retry-count extraction yield a value (never
raise). -/
def LoadTotal : Prop :=
  ∀ st : Stored, (loadLastId st).isSome = true ∧
    ∀ msgId, (getRetryCountJ st msgId).isSome = true

/-- C8 fails on the code: `load_state` swallows only read and JSON-parse
failures (lines 38-41); syntactically valid JSON that is not a valid
cursor — here `{"last_message_id": "xyz"}` — is returned as-is, and the
`int(...)` conversion at line 146 then raises `ValueError` on every tick. -/
theorem C8_counterexample : ¬ LoadTotal := by
  intro h
  have := (h (.content (.jobj [("last_message_id", .jstr "xyz")]))).1
  exact absurd this (by decide)

/-- Claim C8 amended: an absent, unreadable or unparseable state file is
swallowed into the zero-valued cursor (`last_message_id = 0`, every retry
count 0), and well-formed content — an object whose `last_message_id`
value converts with `int(...)`, or lacks the field — loads to the
persisted value (or the `"0"` default).  What is not covered, and forces
the amendment, is readable JSON that is not a valid cursor encoding: there
the conversion at line 146 raises, outside `load_state`. -/
theorem C8_amended :
    (loadLastId .absent = some 0 ∧ loadLastId .unreadable = some 0 ∧
        loadLastId .notJson = some 0) ∧
      (∀ msgId, getRetryCountJ .absent msgId = some 0 ∧
        getRetryCountJ .unreadable msgId = some 0 ∧
        getRetryCountJ .notJson msgId = some 0) ∧
      (∀ fields v n, fields.lookup "last_message_id" = some v → pyInt v = some n →
        loadLastId (.content (.jobj fields)) = some n) ∧
      ∀ fields, fields.lookup "last_message_id" = none →
        loadLastId (.content (.jobj fields)) = some 0 := by
  refine ⟨⟨rfl, rfl, rfl⟩, fun msgId => ⟨rfl, rfl, rfl⟩, ?_, ?_⟩
  · intro fields v n hv hn
    simp [loadLastId, load_state, jGet, hv, hn]
  · intro fields hv
    simp [loadLastId, load_state, jGet, hv]
    rfl

theorem C8_witness :
    loadLastId (.content (.jobj [("last_message_id", .jstr "41")])) = some 41 :=
  C8_amended.2.2.1 [("last_message_id", .jstr "41")] (.jstr "41") 41 rfl rfl

/-! ## Claim C10: case-insensitive extension fallback -/

/-- Claim C10: with no declared content kind, qualification is exactly
membership of the lower-cased filename extension in the fixed set, so
upper-case variants such as `photo.PNG` and `photo.JPG` qualify. -/
theorem C10_lowercase_ext :
    is_image_attachment ⟨"photo.PNG", none⟩ = true ∧
      is_image_attachment ⟨"photo.JPG", none⟩ = true ∧
      ∀ fn, is_image_attachment ⟨fn, none⟩ =
        imageExts.contains (strLower (splitext fn).2) := by
  refine ⟨by decide, by decide, fun fn => ?_⟩
  have h1 : strStartsWith "" "image/" = false := by decide
  simp [is_image_attachment, h1]

end SaltyBot
